import Mathlib

/-!
# Verification of the `go2web` raw HTTP client (`src/go2web.py`)

This file gives a shallow embedding of the request engine of `go2web.py`
(`make_http_request`, its response framing, content decoding, redirect
following and cache policy, plus `search`) and proves the specification
claims about it.

Modelling conventions:

* Python byte strings are `List Nat` (one entry per byte); Python text
  strings are Lean `String`s.  All concrete inputs used in theorems are
  ASCII, where the UTF-8 codec is the identity on code points.
* Genuinely external effects (the socket transport, the zlib/deflate
  inflater, codec tables, BeautifulSoup extraction) are fields of an
  environment record `Env`; theorems quantify over the environment.
* In-place mutation of the caller's header dict and of the on-disk cache
  is modelled by threading the dict / cache state through the function and
  returning their final values; the observable I/O of a call (socket
  fetches, cache writes) is returned as an event trace.
* `urllib.parse.urlparse` is modelled for URLs of the shape
  `scheme://netloc[/path][?query][#fragment]`; the `;parameters` splitting
  of `urlparse` (as opposed to `urlsplit`) and bracketed IPv6 hosts are
  not modelled — no claim concerns them.
-/

namespace Go2Web

/-- Byte strings (Python `bytes`): one natural number per byte. -/
abbrev Bytes := List Nat

/-- Python exceptions that the modelled code can raise or catch.  Each
carries the text that `str(e)` would produce. -/
inductive PyExc where
  | valueError (msg : String)
  | osError (msg : String)
  | eofError (msg : String)
  | zlibError (msg : String)
  | indexError (msg : String)
  | lookupError (msg : String)
  | other (msg : String)
  deriving DecidableEq, Repr

/-- The text `str(e)` of a modelled exception. -/
def PyExc.msg : PyExc → String
  | .valueError m => m
  | .osError m => m
  | .eofError m => m
  | .zlibError m => m
  | .indexError m => m
  | .lookupError m => m
  | .other m => m

/-- Whether the exception is an `OSError` (or a subclass such as
`gzip.BadGzipFile`); this is what `except OSError` catches. -/
def PyExc.isOSError : PyExc → Bool
  | .osError _ => true
  | _ => false

/-! ## Python string and bytes primitives -/

/-- Python `s.startswith(p)`, via character-list prefixes. -/
def pyStartsWith (s p : String) : Bool :=
  p.data.isPrefixOf s.data

/-- Python `s.split(sep)` over character lists, for a non-empty `sep`:
leftmost non-overlapping occurrences, keeping empty pieces.  The fuel
bounds the recursion; each step consumes at least one character, so any
fuel of at least the input's length gives the untruncated split (the
string-level wrapper below passes exactly that). -/
def splitOnFuel (sep : List Char) : Nat → List Char → List (List Char)
  | _, [] => [[]]
  | 0, cs => [cs]
  | n + 1, c :: t =>
    if sep.isPrefixOf (c :: t) then
      [] :: splitOnFuel sep n (t.drop (sep.length - 1))
    else
      match splitOnFuel sep n t with
      | [] => [[c]]
      | h :: r => (c :: h) :: r

/-- Python `s.split(sep)` for a non-empty separator. -/
def pySplit (s sep : String) : List String :=
  (splitOnFuel sep.data s.data.length s.data).map String.mk

/-- Python `sub in s` (substring containment): the separator occurs in
`s` iff splitting on it yields at least two pieces. -/
def pyContains (s sub : String) : Bool :=
  decide (2 ≤ (pySplit s sub).length)

/-- Interpose `sep` between the pieces (`sep.join(pieces)`). -/
def joinWith (sep : List Char) : List (List Char) → List Char
  | [] => []
  | [x] => x
  | x :: r => x ++ sep ++ joinWith sep r

/-- Python `sep.join(pieces)`. -/
def pyJoin (sep : String) (pieces : List String) : String :=
  String.mk (joinWith sep.data (pieces.map String.data))

/-- Python `s.replace(a, b)` (all occurrences): `b.join(s.split(a))`. -/
def pyReplace (s a b : String) : String :=
  pyJoin b (pySplit s a)

/-- Python `s.split(sep, 1)`: the text before the first occurrence of
`sep` and the text after it (the whole of `s` and `""` when `sep` does
not occur). -/
def splitFirst (s sep : String) : String × String :=
  match pySplit s sep with
  | [] => (s, "")
  | [x] => (x, "")
  | x :: rest => (x, pyJoin sep rest)

/-- The characters `str.strip()` removes (the ASCII whitespace class). -/
def pySpace (c : Char) : Bool :=
  c == ' ' || c == '\t' || c == '\n' || c == '\x0d' || c == '\x0b' || c == '\x0c'

/-- Python `s.strip()`. -/
def pyStrip (s : String) : String :=
  String.mk (((s.data.dropWhile pySpace).reverse.dropWhile pySpace).reverse)

/-- Python `s.lower()` (ASCII case folding). -/
def pyLower (s : String) : String :=
  String.mk (s.data.map Char.toLower)

/-- Truthiness of an optional Python string (`if s:`): `None` and the
empty string are falsy. -/
def strTruthy : Option String → Bool
  | some s => s != ""
  | none => false

/-- Value of a decimal digit string (all characters known to be digits). -/
def digitsToNat (ds : List Char) : Nat :=
  ds.foldl (fun n c => n * 10 + (c.toNat - 48)) 0

/-- Python `int(s)` for base 10: strip surrounding whitespace, an optional
sign, then decimal digits; `none` models the `ValueError` raised
otherwise.  (Underscore digit grouping is not modelled; no status-line
token in any claim uses it.) -/
def pyInt (s : String) : Option Int :=
  let signDigits : Bool × List Char :=
    match (pyStrip s).data with
    | '-' :: r => (true, r)
    | '+' :: r => (false, r)
    | r => (false, r)
  if signDigits.2 ≠ [] ∧ signDigits.2.all (·.isDigit) then
    some (if signDigits.1 then -(digitsToNat signDigits.2 : Int) else (digitsToNat signDigits.2 : Int))
  else none

/-- First index of `pat` in `hay` starting the search at offset `i`,
or `-1` (the helper behind Python `bytes.find`). -/
def bytesFindAux : List Nat → List Nat → Nat → Int
  | hay, pat, i =>
    if pat.isPrefixOf hay then (i : Int)
    else
      match hay with
      | [] => -1
      | _ :: t => bytesFindAux t pat (i + 1)

/-- Python `hay.find(pat)` on bytes: index of the first occurrence,
`-1` when absent. -/
def bytesFind (hay pat : Bytes) : Int := bytesFindAux hay pat 0

/-- Python slice `b[:i]` (negative `i` counts from the end, clamped). -/
def pySliceTo (b : Bytes) (i : Int) : Bytes :=
  if 0 ≤ i then b.take i.toNat else b.take ((b.length : Int) + i).toNat

/-- Python slice `b[i:]` (negative `i` counts from the end, clamped). -/
def pySliceFrom (b : Bytes) (i : Int) : Bytes :=
  if 0 ≤ i then b.drop i.toNat else b.drop ((b.length : Int) + i).toNat

/-- The byte values of an ASCII string (used to build concrete wire
inputs). -/
def asciiBytes (s : String) : Bytes := s.data.map Char.toNat

/-- Byte-per-code-point decoding; on ASCII inputs this agrees with
UTF-8 decoding under every error handler. -/
def asciiDecode (b : Bytes) : String := String.mk (b.map Char.ofNat)

/-! ## Header dictionaries

Python `dict[str, str]` with insertion order, modelled as association
lists: updating an existing key keeps its position, a new key is
appended. -/

/-- A Python `dict[str, str]` in insertion order. -/
abbrev Headers := List (String × String)

/-- Python `d.get(k)` / `k in d` lookup (exact, case-sensitive keys). -/
def dictGet (d : Headers) (k : String) : Option String :=
  match d.find? (fun p => p.1 == k) with
  | some p => some p.2
  | none => none

/-- Python `d[k] = v`: overwrite in place, else append. -/
def dictSet (d : Headers) (k v : String) : Headers :=
  if d.any (fun p => p.1 == k) then
    d.map (fun p => if p.1 == k then (k, v) else p)
  else d ++ [(k, v)]

/-! ## URL parsing (`urllib.parse.urlparse`) -/

/-- The components of a parsed URL that `make_http_request` reads. -/
structure ParsedUrl where
  scheme : String
  netloc : String
  path : String
  query : String
  deriving DecidableEq, Repr

/-- Characters allowed in a URL scheme by `urllib.parse`. -/
def isSchemeChar (c : Char) : Bool :=
  c.isAlphanum || c == '+' || c == '-' || c == '.'

/-- Split a character list at the first character satisfying `p`:
the part before it and, when found, the part after it. -/
def splitAtFirst : List Char → (Char → Bool) → List Char × Option (List Char)
  | [], _ => ([], none)
  | c :: t, p =>
    if p c then ([], some t)
    else
      let r := splitAtFirst t p
      (c :: r.1, r.2)

/-- Scheme detection of `urlparse`: a leading run of scheme characters
beginning with a letter, terminated by `:`, becomes the (lowercased)
scheme; otherwise the scheme is empty and the input is untouched. -/
def splitScheme (cs : List Char) : String × List Char :=
  match splitAtFirst cs (· == ':') with
  | (before, some after) =>
    if before ≠ [] ∧ (before.headD ' ').isAlpha ∧ before.all isSchemeChar then
      (String.mk (before.map Char.toLower), after)
    else ("", cs)
  | (_, none) => ("", cs)

/-- Netloc extraction of `urlparse`: after a leading `//`, the netloc
runs until the next `/`, `?` or `#`. -/
def splitNetloc (cs : List Char) : String × List Char :=
  if cs.take 2 = ['/', '/'] then
    let after := cs.drop 2
    let nl := after.takeWhile (fun c => !(c == '/' || c == '?' || c == '#'))
    (String.mk nl, after.drop nl.length)
  else ("", cs)

/-- Model of `urllib.parse.urlparse` restricted to the fields the client
reads (`scheme`, `netloc`, `path`, `query`). -/
def pyUrlparse (url : String) : ParsedUrl :=
  let s := splitScheme url.data
  let n := splitNetloc s.2
  let beforeFrag := (splitAtFirst n.2 (· == '#')).1
  match splitAtFirst beforeFrag (· == '?') with
  | (p, some q) => ⟨s.1, n.1, String.mk p, String.mk q⟩
  | (p, none) => ⟨s.1, n.1, String.mk p, ""⟩

/-- Model of the `port` property of a parse result: the text after the
first `:` of the host info (after the last `@`); the empty text is no
port, a decimal number in range is a port, anything else raises
`ValueError` — this property is evaluated by `make_http_request` before
its `try` block. -/
def netlocPort (netloc : String) : Except PyExc (Option Nat) :=
  let hostinfo := ((pySplit netloc "@").getLast?).getD netloc
  match splitAtFirst hostinfo.data (· == ':') with
  | (_, none) => .ok none
  | (_, some portCs) =>
    if portCs = [] then .ok none
    else if portCs.all (·.isDigit) then
      if digitsToNat portCs ≤ 65535 then .ok (some (digitsToNat portCs))
      else .error (.valueError "Port out of range 0-65535")
    else .error (.valueError ("Port could not be cast to integer value as " ++ String.mk portCs))

/-! ## The cache (class `Cache`)

`Cache.get(url, content_type, max_age)` serves an entry whose file is
younger than the age threshold; `Cache.set` (over)writes the entry's file,
making it fresh.  The key abstracts the cache filename as the
`(url, content-type hint)` pair it is derived from, and the `fresh` flag
abstracts the mtime-age comparison at lookup time. -/

/-- Cache key: the URL together with the optional content-type hint. -/
abbrev CacheKey := String × Option String

/-- A stored cache entry: response body text, response headers, and
whether the entry is within the age window at lookup time. -/
structure CacheVal where
  body : String
  hdrs : Headers
  fresh : Bool
  deriving DecidableEq, Repr

/-- The cache contents (the collection of cache files). -/
abbrev CacheMap := List (CacheKey × CacheVal)

/-- `Cache.get`: the stored `(response, headers)` pair when the entry
exists and is fresh, and `(None, None)` otherwise. -/
def cacheGetRaw (c : CacheMap) (k : CacheKey) : Option (String × Headers) :=
  match c.find? (fun e => e.1 == k) with
  | some e => if e.2.fresh then some (e.2.body, e.2.hdrs) else none
  | none => none

/-- `Cache.set`: overwrite the entry's file (keeping its slot) or create
it; a just-written file is fresh. -/
def cacheSet (c : CacheMap) (k : CacheKey) (body : String) (hdrs : Headers) : CacheMap :=
  if c.any (fun e => e.1 == k) then
    c.map (fun e => if e.1 == k then (k, ⟨body, hdrs, true⟩) else e)
  else c ++ [(k, ⟨body, hdrs, true⟩)]

/-- The cache-consultation prelude of `make_http_request` (lines 68–78):
only GET requests consult the cache; the key carries the accept value
exactly when it is truthy; and — because the code tests the cached body
with `if cached_response:` — a fresh hit whose stored body is the empty
string is not served. -/
def servedHit (c : CacheMap) (url method : String) (accept : Option String) :
    Option (String × Headers) :=
  let hitOf : Option (String × Headers) → Option (String × Headers) := fun r =>
    match r with
    | some bh => if bh.1 != "" then some bh else none
    | none => none
  if method = "GET" ∧ strTruthy accept then hitOf (cacheGetRaw c (url, accept))
  else if method = "GET" then hitOf (cacheGetRaw c (url, none))
  else none

/-! ## The environment: transport, codecs, gzip payload, soup -/

/-- Outcome of the socket phase (create / TLS-wrap / connect / sendall /
recv-until-EOF) for one request: an exception with its message, or the
accumulated raw response bytes. -/
inductive NetOutcome where
  | fail (msg : String)
  | ok (raw : Bytes)

/-- A BeautifulSoup `div.result__body` block, abstracted to the data the
search loop reads: the result anchor's text and `href`, when the block
has an `a.result__a` tag carrying an `href` attribute. -/
abbrev SearchBlock := Option (String × String)

/-- The external collaborators of the engine.  Theorems quantify over
this record, so they hold for every behaviour of the real transport,
codec tables, DEFLATE implementation and HTML parser. -/
structure Env where
  /-- Socket transport: response of the peer at the given URL. -/
  net : String → NetOutcome
  /-- `gzip.decompress` beyond header validation (DEFLATE payload, CRC
  and trailer processing) on inputs with a valid 10-byte header. -/
  gzipRest : Bytes → Except PyExc Bytes
  /-- `zlib.decompress`; the error is `zlib.error`. -/
  zlibDecompress : Bytes → Except Unit Bytes
  /-- `b.decode(cs, errors="replace")` for an arbitrary charset name;
  `none` models the `LookupError` of an unknown codec. -/
  decodeCharset : String → Bytes → Option String
  /-- `b.decode("utf-8", errors="replace")` (total). -/
  decodeUtf8Replace : Bytes → String
  /-- `b.decode("utf-8", errors="ignore")` (total). -/
  decodeUtf8Ignore : Bytes → String
  /-- BeautifulSoup: the `div.result__body` blocks of an HTML page, in
  document order. -/
  soupResults : String → List SearchBlock
  /-- `urllib.parse.quote_plus`. -/
  quotePlus : String → String

/-- CPython `gzip.decompress`: empty input decodes to no members; a bad
2-byte magic raises `BadGzipFile` (an `OSError`); a good magic with a
truncated 10-byte base header raises `EOFError`; past the header the
outcome is the environment's (member decompression, CRC and trailer
checks). -/
def gzipDecompress (env : Env) (b : Bytes) : Except PyExc Bytes :=
  if b = [] then .ok []
  else if b.take 2 ≠ [0x1f, 0x8b] then .error (.osError "Not a gzipped file")
  else if b.length < 10 then
    .error (.eofError "Compressed file ended before the end-of-stream marker was reached")
  else env.gzipRest b

/-! ## Response framing (lines 116–129) -/

/-- The bytes `b"\r\n\r\n"`. -/
def crlfcrlf : Bytes := [13, 10, 13, 10]

/-- Lines 116–129 of `make_http_request`: locate the header/body
boundary with `bytes.find` (which yields `-1` when absent — there is no
check), slice, decode the header block as UTF-8-ignore, take the second
space-separated token of the first line as the status code via `int`,
and fold the remaining `\r\n`-separated lines containing a `:` into a
last-wins header dict with both sides stripped.  Errors are the
exceptions the corresponding Python lines raise, to be caught by the
enclosing `except`. -/
def parseStatus (env : Env) (raw : Bytes) : Except PyExc (Int × Headers × Bytes) :=
  let headerEnd := bytesFind raw crlfcrlf
  let headersRaw := env.decodeUtf8Ignore (pySliceTo raw headerEnd)
  let body := pySliceFrom raw (headerEnd + 4)
  let lines := pySplit headersRaw "\r\n"
  let statusLine := lines.headD ""
  match (pySplit statusLine " ").get? 1 with
  | none => .error (.indexError "list index out of range")
  | some tok =>
    match pyInt tok with
    | none => .error (.valueError ("invalid literal for int() with base 10: " ++ tok))
    | some status =>
      let rh := (lines.drop 1).foldl
        (fun acc line =>
          if pyContains line ":" then
            let kv := splitFirst line ":"
            dictSet acc (pyStrip kv.1) (pyStrip kv.2)
          else acc) ([] : Headers)
      .ok (status, rh, body)

/-- The charset selection of lines 146–150: the text between the first
`charset=` of the Content-Type value and the following `;`, stripped;
`utf-8` by default. -/
def charsetOf (ct : String) : String :=
  if pyContains ct "charset=" then
    pyStrip (((pySplit ((pySplit ct "charset=").getD 1 "") ";").getD 0 ""))
  else "utf-8"

/-- Redirect statuses of line 132. -/
def redirectCodes : List Int := [301, 302, 303, 307, 308]

/-- Lines 136–140: a Location value that does not start with `http://`
or `https://` is joined onto `{scheme}://{netloc}`, with a `/` inserted
unless the value already starts with one. -/
def resolveRedirect (scheme netloc loc : String) : String :=
  if !(pyStartsWith loc "http://" || pyStartsWith loc "https://") then
    if pyStartsWith loc "/" then scheme ++ "://" ++ netloc ++ loc
    else scheme ++ "://" ++ netloc ++ "/" ++ loc
  else loc

/-- The fixed User-Agent of line 62. -/
def userAgent : String :=
  "Mozilla/5.0 (Windows NT 10.0; Win64; x64) AppleWebKit/537.36 (KHTML, like Gecko) Chrome/134.0.0.0 Safari/537.36"

/-- The request text of lines 81–90: request line, one `Name: value`
line per header in insertion order, a Content-Length line when the body
is truthy, a blank line, then the body. -/
def buildRequest (method path : String) (hdrs : Headers) (data : Option String) : String :=
  let base := method ++ " " ++ path ++ " HTTP/1.1\r\n"
  let withH := hdrs.foldl (fun acc kv => acc ++ kv.1 ++ ": " ++ kv.2 ++ "\r\n") base
  let withCL :=
    if strTruthy data then withH ++ "Content-Length: " ++ toString (data.getD "").length ++ "\r\n"
    else withH
  if strTruthy data then withCL ++ "\r\n" ++ data.getD "" else withCL ++ "\r\n"

/-! ## Observable events of a call -/

/-- Observable I/O of a `make_http_request` call: one `netFetch` per
socket cycle (recording the host and port connected to, the transmitted
request text and a snapshot of the header dict at transmission time) and
one `cacheWrite` per `cache.set` (recording the key and the status code
of the response being written). -/
inductive Ev where
  | netFetch (host : String) (port : Nat) (request : String) (snap : Headers)
  | cacheWrite (key : CacheKey) (status : Int)
  deriving DecidableEq, Repr

/-- Whether an event is a socket cycle. -/
def Ev.isNet : Ev → Bool
  | .netFetch _ _ _ _ => true
  | .cacheWrite _ _ => false

/-- Number of network operations in a trace. -/
def netOps (evs : List Ev) : Nat := (evs.filter Ev.isNet).length

/-! ## Content decoding and caching (lines 145–185) -/

/-- Result of the tail of the response pipeline. -/
structure FinishOut where
  result : Except PyExc (String × Headers)
  cache : CacheMap
  events : List Ev
  deriving Repr

/-- Lines 170–183: decode the (possibly decompressed) body under the
detected charset, falling back to UTF-8 on an unknown codec (the source
performs this decode twice in a row, identically — the net effect is a
single decode), then write the cache entry exactly for 200-status GET
responses, keyed with the accept value when truthy. -/
def finishDecode (env : Env) (method url : String) (accept : Option String)
    (status : Int) (charset : String) (rhdrs : Headers) (b : Bytes) (cache : CacheMap) :
    FinishOut :=
  let decoded := (env.decodeCharset charset b).getD (env.decodeUtf8Replace b)
  if method = "GET" ∧ status = 200 then
    let k : CacheKey := (url, if strTruthy accept then accept else none)
    ⟨.ok (decoded, rhdrs), cacheSet cache k decoded rhdrs, [.cacheWrite k status]⟩
  else ⟨.ok (decoded, rhdrs), cache, []⟩

/-- Lines 152–185: Content-Encoding handling followed by charset
decoding and caching.  A `gzip` value decompresses first and decodes the
result; a failure is re-raised unless it is an `OSError`, in which case
the *raw* body is decoded under the detected charset and returned at
once (skipping the cache write) — that bare decode itself raises
`LookupError` on an unknown charset.  `deflate` is analogous with
`zlib.error` as the caught class.  Other or absent encodings decode the
raw body. -/
def finishResponse (env : Env) (method url : String) (accept : Option String)
    (status : Int) (charset : String) (rhdrs : Headers) (body : Bytes) (cache : CacheMap) :
    FinishOut :=
  match dictGet rhdrs "Content-Encoding" with
  | some encv =>
    if pyLower encv = "gzip" then
      match gzipDecompress env body with
      | .ok b => finishDecode env method url accept status charset rhdrs b cache
      | .error e =>
        if e.isOSError then
          match env.decodeCharset charset body with
          | some s => ⟨.ok (s, rhdrs), cache, []⟩
          | none => ⟨.error (.lookupError ("unknown encoding: " ++ charset)), cache, []⟩
        else ⟨.error e, cache, []⟩
    else if pyLower encv = "deflate" then
      match env.zlibDecompress body with
      | .ok b => finishDecode env method url accept status charset rhdrs b cache
      | .error _ =>
        match env.decodeCharset charset body with
        | some s => ⟨.ok (s, rhdrs), cache, []⟩
        | none => ⟨.error (.lookupError ("unknown encoding: " ++ charset)), cache, []⟩
    else finishDecode env method url accept status charset rhdrs body cache
  | none => finishDecode env method url accept status charset rhdrs body cache

/-- The inner `except Exception` of lines 187–188: an exception from the
response-processing region becomes the in-band pair
`("Error parsing response: " + str(e), {})`. -/
def innerWrap (r : Except PyExc (String × Headers)) : Except PyExc (String × Headers) :=
  match r with
  | .error e => .ok ("Error parsing response: " ++ e.msg, [])
  | .ok p => .ok p

/-! ## The request engine (`make_http_request`, lines 47–191) -/

/-- Everything a call to `make_http_request` produces: its return value
(or the exception it raises past its boundary), the final cache state,
the event trace, and the final state of the caller's header dict object
(which the function mutates in place). -/
structure Outcome where
  result : Except PyExc (String × Headers)
  cache : CacheMap
  events : List Ev
  dict : Headers
  deriving Repr

/-- Lines 59–66: install `Host` (the netloc up to the first `:`), the
fixed `User-Agent`, `Connection: close`, and — when the accept argument
is truthy — `Accept`, into the caller's header dict, in that order,
overwriting existing entries in place. -/
def setupHeaders (hdrs0 : Headers) (host : String) (accept : Option String) : Headers :=
  match accept with
  | some a =>
    if a ≠ "" then
      dictSet (dictSet (dictSet (dictSet hdrs0 "Host" host) "User-Agent" userAgent)
        "Connection" "close") "Accept" a
    else dictSet (dictSet (dictSet hdrs0 "Host" host) "User-Agent" userAgent)
      "Connection" "close"
  | none => dictSet (dictSet (dictSet hdrs0 "Host" host) "User-Agent" userAgent)
      "Connection" "close"

/-- The body of `make_http_request`, with the redirect budget carried as
the natural number `max(max_redirects, 0)`: the source only ever tests
`max_redirects > 0` and recurses with `max_redirects - 1`, which over
that counter is exactly a match on successor form — this keeps the
recursion structural.

Tracing the source: parse the URL (the `port` property is read *before*
the `try`, so its `ValueError` propagates, with the header dict still
unmutated); install `Host`, `User-Agent`, `Connection: close` and — when
truthy — `Accept` into the caller's dict; serve a fresh non-empty GET
cache hit with no I/O; otherwise build the request text and run one
socket cycle, whose failure returns the in-band
`"Error making HTTP request: ..."` with `{}`.  The response bytes are
framed by `parseStatus`; on a redirect status with a `Location` header
and remaining budget the call recurses — the source reuses the variable
`data` as its receive buffer, so the recursive call's `data` is the
empty (falsy) byte string, and an exception *raised* by the recursive
call is caught by this call's inner handler.  A terminal response goes
through `finishResponse`. -/
def requestRec (env : Env) (url method : String) (hdrs0 : Headers)
    (data : Option String) (follow : Bool) (accept : Option String) (fuel : Nat)
    (cache : CacheMap) : Outcome :=
  let p := pyUrlparse url
  let hostname := p.netloc
  let path0 := if p.path = "" then "/" else p.path
  let path := if p.query ≠ "" then path0 ++ "?" ++ p.query else path0
  match netlocPort hostname with
  | .error e => ⟨.error e, cache, [], hdrs0⟩
  | .ok portOpt =>
    let defPort := if p.scheme = "http" then 80 else 443
    let port :=
      match portOpt with
      | some n => if n ≠ 0 then n else defPort
      | none => defPort
    let host := (pySplit hostname ":").headD ""
    let hdrs := setupHeaders hdrs0 host accept
    match servedHit cache url method accept with
    | some hit => ⟨.ok hit, cache, [], hdrs⟩
    | none =>
      let req := buildRequest method path hdrs data
      let fev := Ev.netFetch host port req hdrs
      match env.net url with
      | .fail msg => ⟨.ok ("Error making HTTP request: " ++ msg, []), cache, [fev], hdrs⟩
      | .ok raw =>
        match parseStatus env raw with
        | .error e => ⟨innerWrap (.error e), cache, [fev], hdrs⟩
        | .ok (status, rh, body) =>
          let finish : Outcome :=
            let f := finishResponse env method url accept status
              (charsetOf ((dictGet rh "Content-Type").getD "")) rh body cache
            ⟨innerWrap f.result, f.cache, fev :: f.events, hdrs⟩
          match fuel with
          | fn + 1 =>
            if follow && decide (status ∈ redirectCodes) && (dictGet rh "Location").isSome then
              let loc := (dictGet rh "Location").getD ""
              let rurl := resolveRedirect p.scheme hostname loc
              let r := requestRec env rurl method hdrs (some "") follow accept fn cache
              ⟨innerWrap r.result, r.cache, fev :: r.events, r.dict⟩
            else finish
          | 0 => finish

/-- `make_http_request(url, method, headers, data, follow_redirects,
accept, max_redirects)` over the environment `env`, with the cache
contents threaded explicitly; `max_redirects` keeps the source's integer
type and is clamped at zero on entry into the recursion (Python reads it
only through `> 0` and `- 1`, so the two presentations agree on every
integer). -/
def make_http_request (env : Env) (url method : String) (hdrs0 : Headers)
    (data : Option String) (follow : Bool) (accept : Option String) (mr : Int)
    (cache : CacheMap) : Outcome :=
  requestRec env url method hdrs0 data follow accept mr.toNat cache

/-- The host `make_http_request` connects to and installs as `Host`:
the URL's netloc up to the first `:`. -/
def requestHost (url : String) : String :=
  (pySplit (pyUrlparse url).netloc ":").headD ""

/-- The header dict as mutated by a call on `url` with the given accept
value (the state the dict is in from the cache check onwards). -/
def requestHeaders (url : String) (h0 : Headers) (accept : Option String) : Headers :=
  setupHeaders h0 (requestHost url) accept

/-! ## Search (lines 193–214) -/

/-- The tracking-redirect prefix tested at line 205. -/
def uddgPrefix : String := "//duckduckgo.com/l/?uddg="

/-- Line 206–207: the text between `uddg=` and the next `&`, with
`%3A` and `%2F` percent-sequences restored. -/
def unwrapUddg (link : String) : String :=
  pyReplace (pyReplace (((pySplit ((pySplit link "uddg=").getD 1 "") "&").getD 0 "")) "%3A" ":") "%2F" "/"

/-- What one result block contributes (lines 202–208): blocks without an
`href`-carrying result anchor, or whose link does not start with the
tracking prefix, contribute nothing. -/
def ddgMatch (b : SearchBlock) : Option (String × String) :=
  match b with
  | some th =>
    if pyStartsWith th.2 uddgPrefix then some (th.1, unwrapUddg th.2) else none
  | none => none

/-- The accumulation loop of lines 201–210: append each matching block's
pair and stop as soon as ten have been collected. -/
def searchLoop : List SearchBlock → List (String × String) → List (String × String)
  | [], acc => acc
  | b :: rest, acc =>
    match ddgMatch b with
    | none => searchLoop rest acc
    | some p =>
      let acc2 := acc ++ [p]
      if 10 ≤ acc2.length then acc2 else searchLoop rest acc2

/-- `search(term, search_engine)`: for `duckduckgo`, fetch the query URL
through the engine with default arguments and run the result loop over
the soup's result blocks; other engines return `[]`.  An exception
raised by `make_http_request` would propagate out of `search`, hence the
`Except` result (unreachable for the fixed query URL, whose netloc has
no port component). -/
def search (env : Env) (term : String) (engine : String) :
    Except PyExc (List (String × String)) :=
  if engine = "duckduckgo" then
    let url := "https://html.duckduckgo.com/html/?q=" ++ env.quotePlus term
    let r := make_http_request env url "GET" [] none true none 5 []
    match r.result with
    | .error e => .error e
    | .ok bh => .ok (searchLoop (env.soupResults bh.1) [])
  else .ok []

/-! ## Concrete environments for ground-truth evaluations -/

/-- Charset decoding used in concrete runs: the UTF-8 codec on ASCII
bytes (where it is the identity on code points); every other charset
name is treated as unknown. -/
def simpleCharsetDecode (cs : String) (b : Bytes) : Option String :=
  if cs = "utf-8" then some (asciiDecode b) else none

/-- An environment whose transport always answers with `raw` and whose
codecs are the ASCII instantiations. -/
def constEnv (raw : NetOutcome) : Env where
  net := fun _ => raw
  gzipRest := fun _ => .ok []
  zlibDecompress := fun _ => .error ()
  decodeCharset := simpleCharsetDecode
  decodeUtf8Replace := asciiDecode
  decodeUtf8Ignore := asciiDecode
  soupResults := fun _ => []
  quotePlus := fun s => s

/-! ## Dictionary lemmas -/

theorem find?_dictSet_self (d : Headers) (k v : String) :
    (dictSet d k v).find? (fun p => p.1 == k) = some (k, v) := by
  unfold dictSet
  by_cases hany : (d.any fun p => p.1 == k) = true
  · rw [if_pos hany]
    induction d with
    | nil => simp at hany
    | cons p t ih =>
      by_cases hp : (p.1 == k) = true
      · simp [List.find?, hp]
      · simp only [List.any_cons, hp, Bool.false_or] at hany
        simpa [List.find?, hp] using ih hany
  · rw [if_neg hany]
    rw [List.find?_append]
    have hnone : d.find? (fun p => p.1 == k) = none := by
      rw [List.find?_eq_none]
      intro x hx hpx
      exact hany (List.any_eq_true.mpr ⟨x, hx, hpx⟩)
    simp [hnone, List.find?]

theorem find?_overwriteMap (d : Headers) (k k' v : String) (hkk : (k' == k) = false) :
    (d.map fun p => if p.1 == k' then (k', v) else p).find? (fun p => p.1 == k) =
      d.find? (fun p => p.1 == k) := by
  induction d with
  | nil => rfl
  | cons p t ih =>
    by_cases hp : (p.1 == k') = true
    · have hpk : (p.1 == k) = false := by
        have hp1 : p.1 = k' := by simpa using hp
        simpa [hp1] using hkk
      simp only [List.map_cons, hp, if_true, List.find?, hkk, hpk]
      exact ih
    · simp only [List.map_cons, hp, Bool.false_eq_true, if_false]
      by_cases hpk : (p.1 == k) = true
      · simp only [List.find?, hpk]
      · have hpk' : (p.1 == k) = false := by simpa using hpk
        simp only [List.find?, hpk']
        exact ih

theorem find?_dictSet_ne (d : Headers) (k k' v : String) (h : k ≠ k') :
    (dictSet d k' v).find? (fun p => p.1 == k) = d.find? (fun p => p.1 == k) := by
  have hkk : (k' == k) = false := by simpa using (Ne.symm h)
  unfold dictSet
  by_cases hany : (d.any fun p => p.1 == k') = true
  · rw [if_pos hany]
    exact find?_overwriteMap d k k' v hkk
  · rw [if_neg hany]
    rw [List.find?_append]
    cases hd : d.find? (fun p => p.1 == k) with
    | some p => simp
    | none => simp [List.find?, hkk]

theorem dictGet_dictSet_self (d : Headers) (k v : String) :
    dictGet (dictSet d k v) k = some v := by
  unfold dictGet
  rw [find?_dictSet_self]

theorem dictGet_dictSet_ne (d : Headers) (k k' v : String) (h : k ≠ k') :
    dictGet (dictSet d k' v) k = dictGet d k := by
  unfold dictGet
  rw [find?_dictSet_ne d k k' v h]

/-! ## Structural lemmas about the engine -/

theorem netOps_nil : netOps [] = 0 := rfl

theorem netOps_cons_net (h : String) (p : Nat) (r : String) (s : Headers) (evs : List Ev) :
    netOps (Ev.netFetch h p r s :: evs) = netOps evs + 1 := by
  simp [netOps, Ev.isNet, List.filter_cons]

theorem netOps_cons_write (k : CacheKey) (st : Int) (evs : List Ev) :
    netOps (Ev.cacheWrite k st :: evs) = netOps evs := by
  simp [netOps, Ev.isNet, List.filter_cons]

/-- The event trace of the response tail is empty or a single cache
write, the latter exactly for 200-status GETs (recording that status). -/
theorem finishResponse_events (env : Env) (method url : String) (accept : Option String)
    (status : Int) (charset : String) (rh : Headers) (body : Bytes) (cache : CacheMap) :
    (finishResponse env method url accept status charset rh body cache).events = [] ∨
    ∃ k, (finishResponse env method url accept status charset rh body cache).events =
        [Ev.cacheWrite k status] ∧ method = "GET" ∧ status = 200 := by
  unfold finishResponse finishDecode
  repeat' split
  all_goals simp_all

theorem netOps_finishResponse (env : Env) (method url : String) (accept : Option String)
    (status : Int) (charset : String) (rh : Headers) (body : Bytes) (cache : CacheMap) :
    netOps (finishResponse env method url accept status charset rh body cache).events = 0 := by
  rcases finishResponse_events env method url accept status charset rh body cache with
    h | ⟨k, h, _, _⟩ <;> rw [h] <;> simp [netOps, Ev.isNet, List.filter_cons]

/-- Non-GET requests, or non-200 statuses, leave the cache untouched. -/
theorem finishResponse_cache_frame (env : Env) (method url : String) (accept : Option String)
    (status : Int) (charset : String) (rh : Headers) (body : Bytes) (cache : CacheMap)
    (h : ¬ (method = "GET" ∧ status = 200)) :
    (finishResponse env method url accept status charset rh body cache).cache = cache := by
  unfold finishResponse finishDecode
  repeat' split
  all_goals first | rfl | exact absurd (by assumption) h

/-- The returned value of the response tail does not depend on the cache
contents. -/
theorem finishResponse_result_congr (env : Env) (method url : String) (accept : Option String)
    (status : Int) (charset : String) (rh : Headers) (body : Bytes) (c1 c2 : CacheMap) :
    (finishResponse env method url accept status charset rh body c1).result =
    (finishResponse env method url accept status charset rh body c2).result := by
  unfold finishResponse finishDecode
  repeat' split
  all_goals rfl

theorem servedHit_nonGET (cache : CacheMap) (url method : String) (accept : Option String)
    (hm : method ≠ "GET") : servedHit cache url method accept = none := by
  unfold servedHit
  rw [if_neg (fun h => hm h.1), if_neg hm]

theorem setupHeaders_connection (h0 : Headers) (host : String) (accept : Option String) :
    dictGet (setupHeaders h0 host accept) "Connection" = some "close" := by
  cases accept with
  | none => exact dictGet_dictSet_self _ _ _
  | some a =>
    simp only [setupHeaders]
    by_cases ha : a ≠ ""
    · rw [if_pos ha, dictGet_dictSet_ne _ _ _ _ (by decide)]
      exact dictGet_dictSet_self _ _ _
    · rw [if_neg ha]
      exact dictGet_dictSet_self _ _ _

theorem setupHeaders_userAgent (h0 : Headers) (host : String) (accept : Option String) :
    dictGet (setupHeaders h0 host accept) "User-Agent" = some userAgent := by
  cases accept with
  | none =>
    simp only [setupHeaders]
    rw [dictGet_dictSet_ne _ _ _ _ (by decide)]
    exact dictGet_dictSet_self _ _ _
  | some a =>
    simp only [setupHeaders]
    by_cases ha : a ≠ ""
    · rw [if_pos ha, dictGet_dictSet_ne _ _ _ _ (by decide),
        dictGet_dictSet_ne _ _ _ _ (by decide)]
      exact dictGet_dictSet_self _ _ _
    · rw [if_neg ha, dictGet_dictSet_ne _ _ _ _ (by decide)]
      exact dictGet_dictSet_self _ _ _

theorem setupHeaders_host (h0 : Headers) (host : String) (accept : Option String) :
    dictGet (setupHeaders h0 host accept) "Host" = some host := by
  cases accept with
  | none =>
    simp only [setupHeaders]
    rw [dictGet_dictSet_ne _ _ _ _ (by decide), dictGet_dictSet_ne _ _ _ _ (by decide)]
    exact dictGet_dictSet_self _ _ _
  | some a =>
    simp only [setupHeaders]
    by_cases ha : a ≠ ""
    · rw [if_pos ha, dictGet_dictSet_ne _ _ _ _ (by decide),
        dictGet_dictSet_ne _ _ _ _ (by decide), dictGet_dictSet_ne _ _ _ _ (by decide)]
      exact dictGet_dictSet_self _ _ _
    · rw [if_neg ha, dictGet_dictSet_ne _ _ _ _ (by decide),
        dictGet_dictSet_ne _ _ _ _ (by decide)]
      exact dictGet_dictSet_self _ _ _

theorem setupHeaders_accept (h0 : Headers) (host : String) (a : String) (ha : a ≠ "") :
    dictGet (setupHeaders h0 host (some a)) "Accept" = some a := by
  simp only [setupHeaders]
  rw [if_pos ha]
  exact dictGet_dictSet_self _ _ _

set_option maxHeartbeats 4000000 in
theorem requestRec_shape (env : Env) (url method : String) (h0 : Headers) (data : Option String)
    (follow : Bool) (accept : Option String) (fuel : Nat) (cache : CacheMap) :
    (∃ e, netlocPort (pyUrlparse url).netloc = .error e ∧
       requestRec env url method h0 data follow accept fuel cache =
         ⟨.error e, cache, [], h0⟩) ∨
    (∃ hit, servedHit cache url method accept = some hit ∧
       requestRec env url method h0 data follow accept fuel cache =
         ⟨.ok hit, cache, [], requestHeaders url h0 accept⟩) ∨
    (∃ msg prt req,
       requestRec env url method h0 data follow accept fuel cache =
         ⟨.ok ("Error making HTTP request: " ++ msg, []), cache,
          [.netFetch (requestHost url) prt req (requestHeaders url h0 accept)],
          requestHeaders url h0 accept⟩) ∨
    (∃ e prt req,
       requestRec env url method h0 data follow accept fuel cache =
         ⟨.ok ("Error parsing response: " ++ PyExc.msg e, []), cache,
          [.netFetch (requestHost url) prt req (requestHeaders url h0 accept)],
          requestHeaders url h0 accept⟩) ∨
    (∃ fn rurl prt req, fuel = fn + 1 ∧
       requestRec env url method h0 data follow accept fuel cache =
         { result := innerWrap (requestRec env rurl method (requestHeaders url h0 accept)
             (some "") follow accept fn cache).result,
           cache := (requestRec env rurl method (requestHeaders url h0 accept)
             (some "") follow accept fn cache).cache,
           events := .netFetch (requestHost url) prt req (requestHeaders url h0 accept) ::
             (requestRec env rurl method (requestHeaders url h0 accept)
               (some "") follow accept fn cache).events,
           dict := (requestRec env rurl method (requestHeaders url h0 accept)
             (some "") follow accept fn cache).dict }) ∨
    (∃ status rh body prt req,
       requestRec env url method h0 data follow accept fuel cache =
         { result := innerWrap (finishResponse env method url accept status
             (charsetOf ((dictGet rh "Content-Type").getD "")) rh body cache).result,
           cache := (finishResponse env method url accept status
             (charsetOf ((dictGet rh "Content-Type").getD "")) rh body cache).cache,
           events := .netFetch (requestHost url) prt req (requestHeaders url h0 accept) ::
             (finishResponse env method url accept status
               (charsetOf ((dictGet rh "Content-Type").getD "")) rh body cache).events,
           dict := requestHeaders url h0 accept }) := by
  rw [requestRec]
  cases hp : netlocPort (pyUrlparse url).netloc with
  | error e =>
    refine Or.inl ⟨e, rfl, ?_⟩
    simp only [hp]
  | ok portOpt =>
    cases hsh : servedHit cache url method accept with
    | some hit =>
      refine Or.inr (Or.inl ⟨hit, rfl, ?_⟩)
      simp only [hp, hsh, requestHeaders, requestHost]
    | none =>
      cases hnet : env.net url with
      | fail msg =>
        refine Or.inr (Or.inr (Or.inl ?_))
        simp only [hp, hsh, hnet, requestHeaders, requestHost]
        exact ⟨msg, _, _, rfl⟩
      | ok raw =>
        cases hps : parseStatus env raw with
        | error e =>
          refine Or.inr (Or.inr (Or.inr (Or.inl ?_)))
          simp only [hp, hsh, hnet, hps, requestHeaders, requestHost, innerWrap]
          exact ⟨e, _, _, rfl⟩
        | ok trip =>
          obtain ⟨status, rh, body⟩ := trip
          cases fuel with
          | zero =>
            refine Or.inr (Or.inr (Or.inr (Or.inr (Or.inr ?_))))
            simp only [hp, hsh, hnet, hps, requestHeaders, requestHost]
            exact ⟨status, rh, body, _, _, rfl⟩
          | succ fn =>
            by_cases hred :
                (follow && decide (status ∈ redirectCodes) && (dictGet rh "Location").isSome) = true
            · refine Or.inr (Or.inr (Or.inr (Or.inr (Or.inl ?_))))
              simp only [hp, hsh, hnet, hps, hred, requestHeaders, requestHost]
              exact ⟨fn, _, _, _, rfl, rfl⟩
            · have hred2 :
                  (follow && decide (status ∈ redirectCodes) && (dictGet rh "Location").isSome) =
                    false := by simpa using hred
              refine Or.inr (Or.inr (Or.inr (Or.inr (Or.inr ?_))))
              simp only [hp, hsh, hnet, hps, hred2, requestHeaders, requestHost]
              exact ⟨status, rh, body, _, _, rfl⟩

/-! ## Claim C4: relative redirect resolution -/

theorem pyStartsWith_slash_not_http (loc : String) (h : pyStartsWith loc "/" = true) :
    pyStartsWith loc "http://" = false ∧ pyStartsWith loc "https://" = false := by
  have hslash : "/".data <+: loc.data := List.isPrefixOf_iff_prefix.mp h
  constructor
  · by_contra hcon
    have htt : "http://".data <+: loc.data :=
      List.isPrefixOf_iff_prefix.mp (Bool.of_not_eq_false hcon)
    rcases List.prefix_or_prefix_of_prefix hslash htt with h1 | h2
    · exact absurd h1 (by decide)
    · exact absurd h2 (by decide)
  · by_contra hcon
    have htt : "https://".data <+: loc.data :=
      List.isPrefixOf_iff_prefix.mp (Bool.of_not_eq_false hcon)
    rcases List.prefix_or_prefix_of_prefix hslash htt with h1 | h2
    · exact absurd h1 (by decide)
    · exact absurd h2 (by decide)

/-- Claim C4: for every redirect whose Location value starts with `/`
(such a value cannot also start with `http://` or `https://`), the
resolved redirect URL is exactly
`{origin-scheme}://{origin-host}{location}`, where the scheme and the
host-part are those of the URL of the request that received the
redirect. -/
theorem c4_relative_redirect_resolution (scheme host loc : String)
    (h : pyStartsWith loc "/" = true) :
    resolveRedirect scheme host loc = scheme ++ "://" ++ host ++ loc := by
  obtain ⟨h1, h2⟩ := pyStartsWith_slash_not_http loc h
  unfold resolveRedirect
  rw [h1, h2, h]
  simp

/-- Witness for C4 at a concrete location value. -/
theorem c4_relative_redirect_resolution_witness :
    resolveRedirect "http" "example.com:8080" "/new?x=1" =
      "http" ++ "://" ++ "example.com:8080" ++ "/new?x=1" :=
  c4_relative_redirect_resolution "http" "example.com:8080" "/new?x=1" (by decide)

/-! ## Claim C9: search results are capped at ten, in document order -/

theorem searchLoop_eq_take (blocks : List SearchBlock) (acc : List (String × String))
    (hacc : acc.length < 10) :
    searchLoop blocks acc = acc ++ (blocks.filterMap ddgMatch).take (10 - acc.length) := by
  induction blocks generalizing acc with
  | nil => simp [searchLoop]
  | cons b rest ih =>
    cases hm : ddgMatch b with
    | none => simp [searchLoop, hm, ih acc hacc]
    | some p =>
      simp only [searchLoop, hm, List.filterMap_cons]
      by_cases hfull : 10 ≤ (acc ++ [p]).length
      · have h9 : acc.length = 9 := by simp at hfull; omega
        rw [if_pos hfull]
        have : 10 - acc.length = 1 := by omega
        simp [this]
      · rw [if_neg hfull]
        have hlt : (acc ++ [p]).length < 10 := by omega
        rw [ih (acc ++ [p]) hlt]
        have harith : 10 - acc.length = (10 - (acc ++ [p]).length) + 1 := by
          simp at hfull ⊢; omega
        rw [harith, List.take_succ_cons]
        simp

/-- Claim C9: `search(term)` (engine `duckduckgo`) returns a list of
(title, url) pairs of length at most ten, and that list is exactly the
first ten matching result blocks of the fetched page, in the order the
blocks appear in the HTML. -/
theorem c9_search_capped_ordered (env : Env) (term : String)
    (res : List (String × String)) (h : search env term "duckduckgo" = .ok res) :
    res.length ≤ 10 ∧
    ∀ body hdrs,
      (make_http_request env ("https://html.duckduckgo.com/html/?q=" ++ env.quotePlus term)
          "GET" [] none true none 5 []).result = .ok (body, hdrs) →
      res = ((env.soupResults body).filterMap ddgMatch).take 10 := by
  unfold search at h
  rw [if_pos rfl] at h
  dsimp only at h
  cases hr : (make_http_request env ("https://html.duckduckgo.com/html/?q=" ++ env.quotePlus term)
      "GET" [] none true none 5 []).result with
  | error e => rw [hr] at h; exact absurd h (by simp)
  | ok bh =>
    rw [hr] at h
    simp only [Except.ok.injEq] at h
    have hres : res = searchLoop (env.soupResults bh.1) [] := h.symm
    have hloop := searchLoop_eq_take (env.soupResults bh.1) [] (by simp)
    simp only [List.nil_append, List.length_nil, Nat.sub_zero] at hloop
    constructor
    · rw [hres, hloop]
      exact List.length_take_le 10 _
    · intro body hdrs hbh
      have hb : bh = (body, hdrs) := by simpa using hbh
      rw [hres, hloop, hb]

/-- A concrete search environment: the engine serves a plain page and
the soup finds no result blocks. -/
def env9 : Env := constEnv (.ok (asciiBytes "HTTP/1.1 200 OK\r\n\r\npage"))

set_option maxHeartbeats 1000000 in
/-- Witness for C9 at a concrete environment. -/
theorem c9_search_capped_ordered_witness :
    search env9 "lean" "duckduckgo" = .ok [] ∧
      ([] : List (String × String)).length ≤ 10 :=
  ⟨rfl, (c9_search_capped_ordered env9 "lean" [] rfl).1⟩

/-! ## Claim C1: transport failures are returned in-band

The catching itself holds: every failure of the socket phase is turned
into `("Error making HTTP request: ...", {})`.  But the claim's second
half — that the function never raises past its boundary on *any*
input — fails: the URL's `port` property is read at line 56, before the
`try` block, so a URL whose netloc carries a malformed port component
makes `make_http_request` raise `ValueError`. -/

set_option maxHeartbeats 1600000 in
/-- Amended claim C1: whenever the URL's port component parses (the
condition under which control reaches the `try` block) and the cache
does not serve the request, a failure of the connect/TLS/send/receive
phase is caught and returned as a body prefixed
`Error making HTTP request: ` paired with an empty header mapping — and
nothing is raised (the result is a return, not an exception); the cache
is left untouched. -/
theorem c1_transport_failure_in_band (env : Env) (url method : String) (h0 : Headers)
    (data : Option String) (follow : Bool) (accept : Option String) (mr : Int)
    (cache : CacheMap) (po : Option Nat) (msg : String)
    (hport : netlocPort (pyUrlparse url).netloc = .ok po)
    (hmiss : servedHit cache url method accept = none)
    (hnet : env.net url = .fail msg) :
    (make_http_request env url method h0 data follow accept mr cache).result =
      .ok ("Error making HTTP request: " ++ msg, []) ∧
    (make_http_request env url method h0 data follow accept mr cache).cache = cache := by
  unfold make_http_request requestRec
  simp only [hport, hmiss, hnet]
  exact ⟨trivial, trivial⟩

/-- Witness for the amended C1 at a concrete refused connection. -/
theorem c1_transport_failure_in_band_witness :
    (make_http_request (constEnv (.fail "Connection refused")) "http://example.com/" "GET"
        [] none true none 5 []).result =
      .ok ("Error making HTTP request: " ++ "Connection refused", []) :=
  (c1_transport_failure_in_band (constEnv (.fail "Connection refused")) "http://example.com/"
    "GET" [] none true none 5 [] none "Connection refused" rfl rfl rfl).1

/-- Counterexample to C1 as stated: on the URL `http://example.com:abc/`
the `port` property raises `ValueError` before the `try` block is
entered, so `make_http_request` raises past its own boundary instead of
returning anything (the `.error` value is the model of an escaped
exception). -/
theorem c1_port_valueerror_escapes :
    (make_http_request (constEnv (.ok [])) "http://example.com:abc/" "GET"
        [] none true none 5 []).result =
      .error (.valueError "Port could not be cast to integer value as abc") := rfl

/-! ## Claim C2: responses without a CRLFCRLF boundary

The claim (and §4.3 of the spec) says framing fails on such bytes and
the caller reports `Error parsing response:`.  The code has no check for
`bytes.find` returning `-1`: the header block becomes everything but the
last byte, the body becomes the bytes from index `3` on, and framing
*succeeds* whenever the mangled status line still carries a numeric
second token — a status, headers and body are produced from boundary-free
bytes. -/

/-- The boundary-free wire input for C2. -/
def c2raw : Bytes := asciiBytes "HTTP/1.1 200 OK\r\nContent-Type: text/plain\r\nhello"

/-- Claim C2 is right about the code's intent but the code misbehaves:
`c2raw` contains no CRLFCRLF, yet `make_http_request` returns a framed
response — status parsed as 200 (hence the body was even cached), the
headers `{Content-Type: text/plain}`, and a body equal to the raw bytes
from index 3 on — rather than any `Error parsing response:` string. -/
theorem c2_missing_boundary_not_a_parse_error :
    bytesFind c2raw crlfcrlf = -1 ∧
    (make_http_request (constEnv (.ok c2raw)) "http://e.com/" "GET" [] none true none 5 []).result =
      .ok ("P/1.1 200 OK\r\nContent-Type: text/plain\r\nhello", [("Content-Type", "text/plain")]) ∧
    pyStartsWith "P/1.1 200 OK\r\nContent-Type: text/plain\r\nhello" "Error parsing response:" =
      false :=
  ⟨rfl, rfl, rfl⟩

/-! ## Claim C5: Content-Encoding handling

Decompress-before-decode holds, and an `OSError`-raising gzip failure
(or `zlib.error` deflate failure) does fall back to decoding the raw
body.  But the fallback catches only those classes: a truncated gzip
stream makes `gzip.decompress` raise `EOFError`, which sails past
`except OSError` into the inner handler, so the function returns
`("Error parsing response: ...", {})` instead of the raw-body fallback. -/

/-- Amended claim C5: for a response whose `Content-Encoding` is gzip
(resp. deflate), a successful decompression decodes the *decompressed*
bytes under the detected charset (decompression precedes charset
decoding); a decompression failure raising `OSError` (resp.
`zlib.error`) returns the *raw* body decoded under the detected charset
(when that charset is a known codec) together with the response
headers, without writing the cache.  (Failures outside those classes —
e.g. `EOFError` on truncated gzip data — are *not* recovered; see the
counterexample.) -/
theorem c5_decompress_then_decode (env : Env) (method url : String) (accept : Option String)
    (status : Int) (charset : String) (rhdrs : Headers) (body : Bytes) (cache : CacheMap)
    (encv : String) (henc : dictGet rhdrs "Content-Encoding" = some encv) :
    (pyLower encv = "gzip" →
      (∀ b, gzipDecompress env body = .ok b →
        (finishResponse env method url accept status charset rhdrs body cache).result =
          .ok ((env.decodeCharset charset b).getD (env.decodeUtf8Replace b), rhdrs)) ∧
      (∀ m s, gzipDecompress env body = .error (.osError m) →
        env.decodeCharset charset body = some s →
        (finishResponse env method url accept status charset rhdrs body cache).result =
          .ok (s, rhdrs) ∧
        (finishResponse env method url accept status charset rhdrs body cache).cache = cache)) ∧
    (pyLower encv = "deflate" →
      (∀ b, env.zlibDecompress body = .ok b →
        (finishResponse env method url accept status charset rhdrs body cache).result =
          .ok ((env.decodeCharset charset b).getD (env.decodeUtf8Replace b), rhdrs)) ∧
      (∀ s, env.zlibDecompress body = .error () →
        env.decodeCharset charset body = some s →
        (finishResponse env method url accept status charset rhdrs body cache).result =
          .ok (s, rhdrs) ∧
        (finishResponse env method url accept status charset rhdrs body cache).cache = cache)) := by
  constructor
  · intro hgz
    constructor
    · intro b hb
      unfold finishResponse
      rw [henc]
      simp only [hgz, hb]
      simp only [reduceIte]
      unfold finishDecode
      split <;> rfl
    · intro m s hb hs
      unfold finishResponse
      rw [henc]
      simp only [hgz, hb, hs]
      simp only [reduceIte]
      simp [PyExc.isOSError]
  · intro hdf
    constructor
    · intro b hb
      unfold finishResponse
      rw [henc]
      simp only [hdf]
      rw [if_neg (show ¬("deflate" = "gzip") by decide)]
      simp only [if_true]
      simp only [hb]
      unfold finishDecode
      split <;> rfl
    · intro s hb hs
      unfold finishResponse
      rw [henc]
      simp only [hdf]
      rw [if_neg (show ¬("deflate" = "gzip") by decide)]
      simp only [if_true]
      simp only [hb, hs]
      exact ⟨trivial, trivial⟩

/-- Witness for the amended C5: a body with a bad gzip magic raises
`BadGzipFile` (an `OSError`) and the raw bytes come back decoded. -/
theorem c5_decompress_then_decode_witness :
    (finishResponse (constEnv (.ok [])) "GET" "http://e.com/" none 200 "utf-8"
        [("Content-Encoding", "gzip")] (asciiBytes "notgzip") []).result =
      .ok ("notgzip", [("Content-Encoding", "gzip")]) :=
  (((c5_decompress_then_decode (constEnv (.ok [])) "GET" "http://e.com/" none 200 "utf-8"
      [("Content-Encoding", "gzip")] (asciiBytes "notgzip") [] "gzip" rfl).1 rfl).2
    "Not a gzipped file" "notgzip" rfl rfl).1

/-- The C5 counterexample wire input: a gzip-encoded response whose body
is the two magic bytes only (a truncated stream). -/
def c5raw : Bytes := asciiBytes "HTTP/1.1 200 OK\r\nContent-Encoding: gzip\r\n\r\n" ++ [31, 139]

/-- Counterexample to C5 as stated: on a truncated gzip body the
decompression failure (`EOFError`) is not recovered into a raw-body
decode — the function returns an `Error parsing response:` string with
*empty* headers, replacing the result by an error string. -/
theorem c5_truncated_gzip_is_error_string :
    (make_http_request (constEnv (.ok c5raw)) "http://e.com/" "GET" [] none true none 5
        []).result =
      .ok ("Error parsing response: Compressed file ended before the end-of-stream marker was reached",
        []) ∧
    pyStartsWith
      "Error parsing response: Compressed file ended before the end-of-stream marker was reached"
      "Error parsing response:" = true :=
  ⟨rfl, rfl⟩

/-! ## Claim C6: fresh cache hits are served without network I/O

True for every fresh hit whose stored body is non-empty; but the code
guards the hit with `if cached_response:`, so a cached *empty* body is
treated as a miss and the request is fetched again over the network. -/

/-- Amended claim C6: a GET whose `(url, accept)` cache slot holds a
fresh entry with a *non-empty* body is answered with the cached
`(body, headers)` pair immediately: no network operation happens, and
the cache is unchanged. -/
theorem c6_fresh_hit_served_without_network (env : Env) (url : String) (h0 : Headers)
    (data : Option String) (follow : Bool) (accept : Option String) (mr : Int)
    (cache : CacheMap) (po : Option Nat) (b : String) (h : Headers)
    (hport : netlocPort (pyUrlparse url).netloc = .ok po)
    (hhit : cacheGetRaw cache (url, if strTruthy accept then accept else none) = some (b, h))
    (hb : b ≠ "") :
    (make_http_request env url "GET" h0 data follow accept mr cache).result = .ok (b, h) ∧
    netOps (make_http_request env url "GET" h0 data follow accept mr cache).events = 0 ∧
    (make_http_request env url "GET" h0 data follow accept mr cache).cache = cache := by
  have hb2 : (b != "") = true := by simpa using hb
  have hserve : servedHit cache url "GET" accept = some (b, h) := by
    unfold servedHit
    by_cases hta : strTruthy accept = true
    · rw [if_pos ⟨rfl, hta⟩]
      rw [if_pos hta] at hhit
      rw [hhit]
      simp [hb2]
    · have hta' : strTruthy accept = false := by simpa using hta
      rw [if_neg (by simp [hta'])]
      rw [if_pos rfl]
      rw [hta'] at hhit
      simp only [Bool.false_eq_true, if_false] at hhit
      rw [hhit]
      simp [hb2]
  unfold make_http_request requestRec
  simp only [hport, hserve]
  exact ⟨trivial, rfl, trivial⟩

/-- Witness for the amended C6 at a concrete cache state. -/
theorem c6_fresh_hit_served_without_network_witness :
    (make_http_request (constEnv (.ok (asciiBytes "HTTP/1.1 200 OK\r\n\r\nsecond")))
        "http://e.com/" "GET" [] none true none 5
        [(("http://e.com/", none), ⟨"cached", [("X", "y")], true⟩)]).result =
      .ok ("cached", [("X", "y")]) :=
  (c6_fresh_hit_served_without_network
    (constEnv (.ok (asciiBytes "HTTP/1.1 200 OK\r\n\r\nsecond"))) "http://e.com/" [] none true
    none 5 [(("http://e.com/", none), ⟨"cached", [("X", "y")], true⟩)] none "cached" [("X", "y")]
    rfl rfl (by decide)).1

/-- Counterexample to C6 as stated: the cache holds a fresh entry for
the pair (with empty body and some headers), yet the second GET issues
one network operation and returns the refetched response instead of the
cached pair. -/
theorem c6_empty_cached_body_refetched :
    cacheGetRaw [(("http://e.com/", none), ⟨"", [("X", "y")], true⟩)] ("http://e.com/", none) =
      some ("", [("X", "y")]) ∧
    netOps (make_http_request (constEnv (.ok (asciiBytes "HTTP/1.1 200 OK\r\n\r\nsecond")))
        "http://e.com/" "GET" [] none true none 5
        [(("http://e.com/", none), ⟨"", [("X", "y")], true⟩)]).events = 1 ∧
    (make_http_request (constEnv (.ok (asciiBytes "HTTP/1.1 200 OK\r\n\r\nsecond")))
        "http://e.com/" "GET" [] none true none 5
        [(("http://e.com/", none), ⟨"", [("X", "y")], true⟩)]).result = .ok ("second", []) :=
  ⟨rfl, rfl, rfl⟩

/-! ## Claim C3: redirect hops never exceed the budget -/

/-- Each call performs at most `fuel + 1` socket cycles. -/
theorem netOps_requestRec_le (env : Env) (method : String) (follow : Bool)
    (accept : Option String) :
    ∀ (fuel : Nat) (url : String) (h0 : Headers) (data : Option String) (cache : CacheMap),
      netOps (requestRec env url method h0 data follow accept fuel cache).events ≤ fuel + 1 := by
  intro fuel
  induction fuel with
  | zero =>
    intro url h0 data cache
    rcases requestRec_shape env url method h0 data follow accept 0 cache with
      ⟨e, hp, heq⟩ | ⟨hit, hsh, heq⟩ | ⟨msg, prt, req, heq⟩ | ⟨e, prt, req, heq⟩ |
      ⟨fn, rurl, prt, req, hfn, heq⟩ | ⟨st, rh, bd, prt, req, heq⟩
    · rw [heq]; simp [netOps]
    · rw [heq]; simp [netOps]
    · rw [heq]; simp [netOps, Ev.isNet, List.filter_cons]
    · rw [heq]; simp [netOps, Ev.isNet, List.filter_cons]
    · exact absurd hfn (by omega)
    · rw [heq]
      show netOps (_ :: _) ≤ 1
      rw [netOps_cons_net, netOps_finishResponse]
  | succ n ih =>
    intro url h0 data cache
    rcases requestRec_shape env url method h0 data follow accept (n + 1) cache with
      ⟨e, hp, heq⟩ | ⟨hit, hsh, heq⟩ | ⟨msg, prt, req, heq⟩ | ⟨e, prt, req, heq⟩ |
      ⟨fn, rurl, prt, req, hfn, heq⟩ | ⟨st, rh, bd, prt, req, heq⟩
    · rw [heq]; simp [netOps]
    · rw [heq]; simp [netOps]
    · rw [heq]; simp [netOps, Ev.isNet, List.filter_cons]
    · rw [heq]; simp [netOps, Ev.isNet, List.filter_cons]
    · have hfn2 : fn = n := by omega
      rw [hfn2] at heq
      rw [heq]
      show netOps (_ :: _) ≤ n + 1 + 1
      rw [netOps_cons_net]
      have := ih rurl (requestHeaders url h0 accept) (some "") cache
      omega
    · rw [heq]
      show netOps (_ :: _) ≤ n + 1 + 1
      rw [netOps_cons_net, netOps_finishResponse]
      omega

/-- Claim C3: (1) redirect following performs at most `max_redirects`
hops — a call issues at most `max(max_redirects, 0) + 1` socket cycles
in total, i.e. at most `max_redirects` beyond the first, so the
decremented counter can never pass below zero; (2) with
`max_redirects = 0`, a response that *is* a redirect (redirect status,
`Location` present, following enabled) is not followed: exactly one
socket cycle happens and the response itself is processed as the
terminal response and returned. -/
theorem c3_redirect_hops_bounded :
    (∀ (env : Env) (url method : String) (h0 : Headers) (data : Option String) (follow : Bool)
        (accept : Option String) (mr : Int) (cache : CacheMap),
        netOps (make_http_request env url method h0 data follow accept mr cache).events ≤
          mr.toNat + 1) ∧
    (∀ (env : Env) (url method : String) (h0 : Headers) (data : Option String)
        (accept : Option String) (cache : CacheMap) (po : Option Nat) (raw : Bytes)
        (status : Int) (rh : Headers) (body : Bytes),
        netlocPort (pyUrlparse url).netloc = .ok po →
        servedHit cache url method accept = none →
        env.net url = .ok raw →
        parseStatus env raw = .ok (status, rh, body) →
        status ∈ redirectCodes →
        (dictGet rh "Location").isSome = true →
        (make_http_request env url method h0 data true accept 0 cache).result =
          innerWrap (finishResponse env method url accept status
            (charsetOf ((dictGet rh "Content-Type").getD "")) rh body cache).result ∧
        netOps (make_http_request env url method h0 data true accept 0 cache).events = 1) := by
  constructor
  · intro env url method h0 data follow accept mr cache
    unfold make_http_request
    exact netOps_requestRec_le env method follow accept mr.toNat url h0 data cache
  · intro env url method h0 data accept cache po raw status rh body hport hserve hnet hps
      _hstatus _hloc
    unfold make_http_request requestRec
    simp only [hport, hserve, hnet, hps, Int.toNat_zero]
    refine ⟨trivial, ?_⟩
    rw [netOps_cons_net, netOps_finishResponse]

/-- Witness for C3: a concrete redirect loop with budget 5 makes at most
six socket cycles, and with budget 0 the 301 response comes back
unfollowed, body and headers verbatim. -/
theorem c3_redirect_hops_bounded_witness :
    netOps (make_http_request
        (constEnv (.ok (asciiBytes "HTTP/1.1 301 Moved\r\nLocation: /new\r\n\r\nmoved")))
        "http://e.com/" "GET" [] none true none 5 []).events ≤ 6 ∧
    (make_http_request
        (constEnv (.ok (asciiBytes "HTTP/1.1 301 Moved\r\nLocation: /new\r\n\r\nmoved")))
        "http://e.com/" "GET" [] none true none 0 []).result =
      .ok ("moved", [("Location", "/new")]) := by
  constructor
  · exact c3_redirect_hops_bounded.1
      (constEnv (.ok (asciiBytes "HTTP/1.1 301 Moved\r\nLocation: /new\r\n\r\nmoved")))
      "http://e.com/" "GET" [] none true none 5 []
  · have h := (c3_redirect_hops_bounded.2
      (constEnv (.ok (asciiBytes "HTTP/1.1 301 Moved\r\nLocation: /new\r\n\r\nmoved")))
      "http://e.com/" "GET" [] none none [] none
      (asciiBytes "HTTP/1.1 301 Moved\r\nLocation: /new\r\n\r\nmoved")
      301 [("Location", "/new")] (asciiBytes "moved")
      rfl rfl rfl rfl (by decide) rfl).1
    exact h.trans (by rfl)

/-! ## Claim C7: cache policy -/

/-- Non-GET calls leave the cache exactly as found. -/
theorem requestRec_cache_nonGET (env : Env) (method : String) (follow : Bool)
    (accept : Option String) (hm : method ≠ "GET") :
    ∀ (fuel : Nat) (url : String) (h0 : Headers) (data : Option String) (cache : CacheMap),
      (requestRec env url method h0 data follow accept fuel cache).cache = cache := by
  intro fuel
  induction fuel with
  | zero =>
    intro url h0 data cache
    rcases requestRec_shape env url method h0 data follow accept 0 cache with
      ⟨e, hp, heq⟩ | ⟨hit, hsh, heq⟩ | ⟨msg, prt, req, heq⟩ | ⟨e, prt, req, heq⟩ |
      ⟨fn, rurl, prt, req, hfn, heq⟩ | ⟨st, rh, bd, prt, req, heq⟩
    · rw [heq]
    · rw [heq]
    · rw [heq]
    · rw [heq]
    · exact absurd hfn (by omega)
    · rw [heq]
      exact finishResponse_cache_frame _ _ _ _ _ _ _ _ _ (fun hc => hm hc.1)
  | succ n ih =>
    intro url h0 data cache
    rcases requestRec_shape env url method h0 data follow accept (n + 1) cache with
      ⟨e, hp, heq⟩ | ⟨hit, hsh, heq⟩ | ⟨msg, prt, req, heq⟩ | ⟨e, prt, req, heq⟩ |
      ⟨fn, rurl, prt, req, hfn, heq⟩ | ⟨st, rh, bd, prt, req, heq⟩
    · rw [heq]
    · rw [heq]
    · rw [heq]
    · rw [heq]
    · have hfn2 : fn = n := by omega
      rw [hfn2] at heq
      rw [heq]
      exact ih rurl (requestHeaders url h0 accept) (some "") cache
    · rw [heq]
      exact finishResponse_cache_frame _ _ _ _ _ _ _ _ _ (fun hc => hm hc.1)

/-- Every cache write the engine performs records a 200 status and
happens only in a GET call. -/
theorem requestRec_writes_GET200 (env : Env) (method : String) (follow : Bool)
    (accept : Option String) :
    ∀ (fuel : Nat) (url : String) (h0 : Headers) (data : Option String) (cache : CacheMap)
      (k : CacheKey) (st : Int),
      Ev.cacheWrite k st ∈ (requestRec env url method h0 data follow accept fuel cache).events →
      method = "GET" ∧ st = 200 := by
  intro fuel
  induction fuel with
  | zero =>
    intro url h0 data cache k st hmem
    rcases requestRec_shape env url method h0 data follow accept 0 cache with
      ⟨e, hp, heq⟩ | ⟨hit, hsh, heq⟩ | ⟨msg, prt, req, heq⟩ | ⟨e, prt, req, heq⟩ |
      ⟨fn, rurl, prt, req, hfn, heq⟩ | ⟨st2, rh, bd, prt, req, heq⟩
    · rw [heq] at hmem; simp at hmem
    · rw [heq] at hmem; simp at hmem
    · rw [heq] at hmem; simp at hmem
    · rw [heq] at hmem; simp at hmem
    · exact absurd hfn (by omega)
    · rw [heq] at hmem
      simp only [List.mem_cons] at hmem
      rcases hmem with hmem | hmem
      · exact absurd hmem (by simp)
      · rcases finishResponse_events env method url accept st2
            (charsetOf ((dictGet rh "Content-Type").getD "")) rh bd cache with
          hev | ⟨k2, hev, hget, h200⟩
        · rw [hev] at hmem; simp at hmem
        · rw [hev] at hmem
          simp only [List.mem_singleton, Ev.cacheWrite.injEq] at hmem
          exact ⟨hget, hmem.2.trans h200⟩
  | succ n ih =>
    intro url h0 data cache k st hmem
    rcases requestRec_shape env url method h0 data follow accept (n + 1) cache with
      ⟨e, hp, heq⟩ | ⟨hit, hsh, heq⟩ | ⟨msg, prt, req, heq⟩ | ⟨e, prt, req, heq⟩ |
      ⟨fn, rurl, prt, req, hfn, heq⟩ | ⟨st2, rh, bd, prt, req, heq⟩
    · rw [heq] at hmem; simp at hmem
    · rw [heq] at hmem; simp at hmem
    · rw [heq] at hmem; simp at hmem
    · rw [heq] at hmem; simp at hmem
    · have hfn2 : fn = n := by omega
      rw [hfn2] at heq
      rw [heq] at hmem
      simp only [List.mem_cons] at hmem
      rcases hmem with hmem | hmem
      · exact absurd hmem (by simp)
      · exact ih rurl (requestHeaders url h0 accept) (some "") cache k st hmem
    · rw [heq] at hmem
      simp only [List.mem_cons] at hmem
      rcases hmem with hmem | hmem
      · exact absurd hmem (by simp)
      · rcases finishResponse_events env method url accept st2
            (charsetOf ((dictGet rh "Content-Type").getD "")) rh bd cache with
          hev | ⟨k2, hev, hget, h200⟩
        · rw [hev] at hmem; simp at hmem
        · rw [hev] at hmem
          simp only [List.mem_singleton, Ev.cacheWrite.injEq] at hmem
          exact ⟨hget, hmem.2.trans h200⟩

/-- The value a non-GET call returns does not depend on the cache
contents (the cache is never consulted for it). -/
theorem requestRec_result_nonGET (env : Env) (method : String) (follow : Bool)
    (accept : Option String) (hm : method ≠ "GET") :
    ∀ (fuel : Nat) (url : String) (h0 : Headers) (data : Option String) (c1 c2 : CacheMap),
      (requestRec env url method h0 data follow accept fuel c1).result =
      (requestRec env url method h0 data follow accept fuel c2).result := by
  intro fuel
  induction fuel with
  | zero =>
    intro url h0 data c1 c2
    rw [requestRec, requestRec]
    cases hp : netlocPort (pyUrlparse url).netloc with
    | error e => rfl
    | ok portOpt =>
      dsimp only
      rw [servedHit_nonGET c1 url method accept hm, servedHit_nonGET c2 url method accept hm]
      dsimp only
      cases hnet : env.net url with
      | fail msg => rfl
      | ok raw =>
        dsimp only
        cases hps : parseStatus env raw with
        | error e => rfl
        | ok trip =>
          obtain ⟨status, rh, body⟩ := trip
          dsimp only
          exact congrArg innerWrap (finishResponse_result_congr env method url accept status
            (charsetOf ((dictGet rh "Content-Type").getD "")) rh body c1 c2)
  | succ n ih =>
    intro url h0 data c1 c2
    rw [requestRec, requestRec]
    cases hp : netlocPort (pyUrlparse url).netloc with
    | error e => rfl
    | ok portOpt =>
      dsimp only
      rw [servedHit_nonGET c1 url method accept hm, servedHit_nonGET c2 url method accept hm]
      dsimp only
      cases hnet : env.net url with
      | fail msg => rfl
      | ok raw =>
        dsimp only
        cases hps : parseStatus env raw with
        | error e => rfl
        | ok trip =>
          obtain ⟨status, rh, body⟩ := trip
          dsimp only
          by_cases hred :
              (follow && decide (status ∈ redirectCodes) && (dictGet rh "Location").isSome) = true
          · simp only [hred, if_true]
            exact congrArg innerWrap (ih _ _ (some "") c1 c2)
          · have hred2 :
                (follow && decide (status ∈ redirectCodes) && (dictGet rh "Location").isSome) =
                  false := by simpa using hred
            simp only [hred2, Bool.false_eq_true, if_false]
            exact congrArg innerWrap (finishResponse_result_congr env method url accept status
              (charsetOf ((dictGet rh "Content-Type").getD "")) rh body c1 c2)


/-- Claim C7: (1) a non-GET call leaves the cache untouched; (2) every
cache write carries status 200 and occurs in a GET call — non-200
responses are never written; (3) a non-GET call is never answered from
the cache: its result is the same whatever the cache holds. -/
theorem c7_cache_only_get200 :
    (∀ (env : Env) (url method : String) (h0 : Headers) (data : Option String) (follow : Bool)
        (accept : Option String) (mr : Int) (cache : CacheMap), method ≠ "GET" →
        (make_http_request env url method h0 data follow accept mr cache).cache = cache) ∧
    (∀ (env : Env) (url method : String) (h0 : Headers) (data : Option String) (follow : Bool)
        (accept : Option String) (mr : Int) (cache : CacheMap) (k : CacheKey) (st : Int),
        Ev.cacheWrite k st ∈ (make_http_request env url method h0 data follow accept mr cache).events →
        method = "GET" ∧ st = 200) ∧
    (∀ (env : Env) (url method : String) (h0 : Headers) (data : Option String) (follow : Bool)
        (accept : Option String) (mr : Int) (c1 c2 : CacheMap), method ≠ "GET" →
        (make_http_request env url method h0 data follow accept mr c1).result =
        (make_http_request env url method h0 data follow accept mr c2).result) := by
  refine ⟨?_, ?_, ?_⟩
  · intro env url method h0 data follow accept mr cache hm
    unfold make_http_request
    exact requestRec_cache_nonGET env method follow accept hm mr.toNat url h0 data cache
  · intro env url method h0 data follow accept mr cache k st hmem
    exact requestRec_writes_GET200 env method follow accept mr.toNat url h0 data cache k st hmem
  · intro env url method h0 data follow accept mr c1 c2 hm
    unfold make_http_request
    exact requestRec_result_nonGET env method follow accept hm mr.toNat url h0 data c1 c2

/-- Witness for C7: a concrete POST leaves a non-trivial cache intact
and returns the same as with an empty cache; and the concrete cache
write of a 200 GET is certified as a GET write of status 200. -/
theorem c7_cache_only_get200_witness :
    (make_http_request (constEnv (.ok (asciiBytes "HTTP/1.1 200 OK\r\n\r\nhello")))
        "http://e.com/" "POST" [] none true none 5
        [(("http://x/", none), ⟨"old", [], true⟩)]).cache =
      [(("http://x/", none), ⟨"old", [], true⟩)] ∧
    ("GET" : String) = "GET" ∧ (200 : Int) = 200 := by
  constructor
  · exact c7_cache_only_get200.1 (constEnv (.ok (asciiBytes "HTTP/1.1 200 OK\r\n\r\nhello")))
      "http://e.com/" "POST" [] none true none 5
      [(("http://x/", none), ⟨"old", [], true⟩)] (by decide)
  · exact c7_cache_only_get200.2.1 (constEnv (.ok (asciiBytes "HTTP/1.1 200 OK\r\n\r\nhello")))
      "http://e.com/" "GET" [] none true none 5 [] ("http://e.com/", none) 200 (by decide)

/-! ## Claim C8: mandatory headers on every transmitted request -/

theorem requestHeaders_props (url : String) (h0 : Headers) (accept : Option String) :
    dictGet (requestHeaders url h0 accept) "Connection" = some "close" ∧
    dictGet (requestHeaders url h0 accept) "User-Agent" = some userAgent ∧
    (dictGet (requestHeaders url h0 accept) "Host").isSome = true := by
  unfold requestHeaders
  refine ⟨setupHeaders_connection _ _ _, setupHeaders_userAgent _ _ _, ?_⟩
  rw [setupHeaders_host]
  rfl

/-- Every socket cycle's header-dict snapshot carries the mandatory
headers. -/
theorem requestRec_snap_headers (env : Env) (method : String) (follow : Bool)
    (accept : Option String) :
    ∀ (fuel : Nat) (url : String) (h0 : Headers) (data : Option String) (cache : CacheMap)
      (hst : String) (prt : Nat) (req : String) (snap : Headers),
      Ev.netFetch hst prt req snap ∈
        (requestRec env url method h0 data follow accept fuel cache).events →
      dictGet snap "Connection" = some "close" ∧
      dictGet snap "User-Agent" = some userAgent ∧
      (dictGet snap "Host").isSome = true := by
  intro fuel
  induction fuel with
  | zero =>
    intro url h0 data cache hst prt req snap hmem
    rcases requestRec_shape env url method h0 data follow accept 0 cache with
      ⟨e, hp, heq⟩ | ⟨hit, hsh, heq⟩ | ⟨msg, prt2, req2, heq⟩ | ⟨e, prt2, req2, heq⟩ |
      ⟨fn, rurl, prt2, req2, hfn, heq⟩ | ⟨st2, rh, bd, prt2, req2, heq⟩
    · rw [heq] at hmem; simp at hmem
    · rw [heq] at hmem; simp at hmem
    · rw [heq] at hmem
      simp only [List.mem_singleton, Ev.netFetch.injEq] at hmem
      rw [hmem.2.2.2]
      exact requestHeaders_props url h0 accept
    · rw [heq] at hmem
      simp only [List.mem_singleton, Ev.netFetch.injEq] at hmem
      rw [hmem.2.2.2]
      exact requestHeaders_props url h0 accept
    · exact absurd hfn (by omega)
    · rw [heq] at hmem
      simp only [List.mem_cons, Ev.netFetch.injEq] at hmem
      rcases hmem with hmem | hmem
      · rw [hmem.2.2.2]
        exact requestHeaders_props url h0 accept
      · rcases finishResponse_events env method url accept st2
            (charsetOf ((dictGet rh "Content-Type").getD "")) rh bd cache with
          hev | ⟨k2, hev, _, _⟩
        · rw [hev] at hmem; simp at hmem
        · rw [hev] at hmem; simp at hmem
  | succ n ih =>
    intro url h0 data cache hst prt req snap hmem
    rcases requestRec_shape env url method h0 data follow accept (n + 1) cache with
      ⟨e, hp, heq⟩ | ⟨hit, hsh, heq⟩ | ⟨msg, prt2, req2, heq⟩ | ⟨e, prt2, req2, heq⟩ |
      ⟨fn, rurl, prt2, req2, hfn, heq⟩ | ⟨st2, rh, bd, prt2, req2, heq⟩
    · rw [heq] at hmem; simp at hmem
    · rw [heq] at hmem; simp at hmem
    · rw [heq] at hmem
      simp only [List.mem_singleton, Ev.netFetch.injEq] at hmem
      rw [hmem.2.2.2]
      exact requestHeaders_props url h0 accept
    · rw [heq] at hmem
      simp only [List.mem_singleton, Ev.netFetch.injEq] at hmem
      rw [hmem.2.2.2]
      exact requestHeaders_props url h0 accept
    · have hfn2 : fn = n := by omega
      rw [hfn2] at heq
      rw [heq] at hmem
      simp only [List.mem_cons, Ev.netFetch.injEq] at hmem
      rcases hmem with hmem | hmem
      · rw [hmem.2.2.2]
        exact requestHeaders_props url h0 accept
      · exact ih rurl (requestHeaders url h0 accept) (some "") cache hst prt req snap hmem
    · rw [heq] at hmem
      simp only [List.mem_cons, Ev.netFetch.injEq] at hmem
      rcases hmem with hmem | hmem
      · rw [hmem.2.2.2]
        exact requestHeaders_props url h0 accept
      · rcases finishResponse_events env method url accept st2
            (charsetOf ((dictGet rh "Content-Type").getD "")) rh bd cache with
          hev | ⟨k2, hev, _, _⟩
        · rw [hev] at hmem; simp at hmem
        · rw [hev] at hmem; simp at hmem

/-- Claim C8: whatever headers the caller supplies, at the moment a
request is built and sent its header mapping contains `Host`,
`User-Agent` (the fixed string) and `Connection` with value `close`. -/
theorem c8_mandatory_headers_transmitted (env : Env) (url method : String) (h0 : Headers)
    (data : Option String) (follow : Bool) (accept : Option String) (mr : Int)
    (cache : CacheMap) (hst : String) (prt : Nat) (req : String) (snap : Headers)
    (hmem : Ev.netFetch hst prt req snap ∈
      (make_http_request env url method h0 data follow accept mr cache).events) :
    dictGet snap "Connection" = some "close" ∧
    dictGet snap "User-Agent" = some userAgent ∧
    (dictGet snap "Host").isSome = true :=
  requestRec_snap_headers env method follow accept mr.toNat url h0 data cache hst prt req snap hmem

/-- The request text of the C8 witness fetch. -/
def w8req : String :=
  "GET / HTTP/1.1\r\nHost: e.com\r\nUser-Agent: " ++ userAgent ++
    "\r\nConnection: close\r\n\r\n"

/-- The header-dict snapshot of the C8 witness fetch: the caller's
`Connection: keep-alive` has been overwritten. -/
def w8snap : Headers :=
  [("Connection", "close"), ("Host", "e.com"), ("User-Agent", userAgent)]

set_option maxRecDepth 4000 in
/-- Witness for C8 at a concrete fetch whose caller dict tried
`Connection: keep-alive`. -/
theorem c8_mandatory_headers_transmitted_witness :
    dictGet w8snap "Connection" = some "close" ∧
    dictGet w8snap "User-Agent" = some userAgent ∧
    (dictGet w8snap "Host").isSome = true :=
  c8_mandatory_headers_transmitted (constEnv (.ok (asciiBytes "HTTP/1.1 200 OK\r\n\r\nhi")))
    "http://e.com/" "GET" [("Connection", "keep-alive")] none true none 5 [] "e.com" 80
    ("GET / HTTP/1.1\r\nConnection: close\r\nHost: e.com\r\nUser-Agent: " ++ userAgent ++
      "\r\n\r\n")
    w8snap (by decide)

/-! ## Claim C10: the caller-supplied header dict is mutated in place -/

theorem requestHeaders_accept (url : String) (h0 : Headers) (a : String) (ha : a ≠ "") :
    dictGet (requestHeaders url h0 (some a)) "Accept" = some a := by
  unfold requestHeaders
  exact setupHeaders_accept _ _ a ha

/-- The final state of the header dict keeps the mandatory entries once
the dict entering the call has them. -/
theorem requestRec_dict_mutation (env : Env) (method : String) (follow : Bool)
    (accept : Option String) :
    ∀ (fuel : Nat) (url : String) (h0 : Headers) (data : Option String) (cache : CacheMap),
      (dictGet h0 "Connection" = some "close" ∧
       dictGet h0 "User-Agent" = some userAgent ∧
       (dictGet h0 "Host").isSome = true ∧
       (∀ a, accept = some a → a ≠ "" → dictGet h0 "Accept" = some a)) →
      (dictGet (requestRec env url method h0 data follow accept fuel cache).dict "Connection" =
        some "close" ∧
       dictGet (requestRec env url method h0 data follow accept fuel cache).dict "User-Agent" =
        some userAgent ∧
       (dictGet (requestRec env url method h0 data follow accept fuel cache).dict "Host").isSome =
        true ∧
       (∀ a, accept = some a → a ≠ "" →
        dictGet (requestRec env url method h0 data follow accept fuel cache).dict "Accept" =
          some a)) := by
  intro fuel
  induction fuel with
  | zero =>
    intro url h0 data cache hP
    rcases requestRec_shape env url method h0 data follow accept 0 cache with
      ⟨e, hp, heq⟩ | ⟨hit, hsh, heq⟩ | ⟨msg, prt2, req2, heq⟩ | ⟨e, prt2, req2, heq⟩ |
      ⟨fn, rurl, prt2, req2, hfn, heq⟩ | ⟨st2, rh, bd, prt2, req2, heq⟩
    · rw [heq]; exact hP
    · rw [heq]
      obtain ⟨hc, hu, hh⟩ := requestHeaders_props url h0 accept
      exact ⟨hc, hu, hh, fun a haeq ha => by
        rw [haeq]; exact requestHeaders_accept url h0 a ha⟩
    · rw [heq]
      obtain ⟨hc, hu, hh⟩ := requestHeaders_props url h0 accept
      exact ⟨hc, hu, hh, fun a haeq ha => by
        rw [haeq]; exact requestHeaders_accept url h0 a ha⟩
    · rw [heq]
      obtain ⟨hc, hu, hh⟩ := requestHeaders_props url h0 accept
      exact ⟨hc, hu, hh, fun a haeq ha => by
        rw [haeq]; exact requestHeaders_accept url h0 a ha⟩
    · exact absurd hfn (by omega)
    · rw [heq]
      obtain ⟨hc, hu, hh⟩ := requestHeaders_props url h0 accept
      exact ⟨hc, hu, hh, fun a haeq ha => by
        rw [haeq]; exact requestHeaders_accept url h0 a ha⟩
  | succ n ih =>
    intro url h0 data cache hP
    rcases requestRec_shape env url method h0 data follow accept (n + 1) cache with
      ⟨e, hp, heq⟩ | ⟨hit, hsh, heq⟩ | ⟨msg, prt2, req2, heq⟩ | ⟨e, prt2, req2, heq⟩ |
      ⟨fn, rurl, prt2, req2, hfn, heq⟩ | ⟨st2, rh, bd, prt2, req2, heq⟩
    · rw [heq]; exact hP
    · rw [heq]
      obtain ⟨hc, hu, hh⟩ := requestHeaders_props url h0 accept
      exact ⟨hc, hu, hh, fun a haeq ha => by
        rw [haeq]; exact requestHeaders_accept url h0 a ha⟩
    · rw [heq]
      obtain ⟨hc, hu, hh⟩ := requestHeaders_props url h0 accept
      exact ⟨hc, hu, hh, fun a haeq ha => by
        rw [haeq]; exact requestHeaders_accept url h0 a ha⟩
    · rw [heq]
      obtain ⟨hc, hu, hh⟩ := requestHeaders_props url h0 accept
      exact ⟨hc, hu, hh, fun a haeq ha => by
        rw [haeq]; exact requestHeaders_accept url h0 a ha⟩
    · have hfn2 : fn = n := by omega
      rw [hfn2] at heq
      rw [heq]
      refine ih rurl (requestHeaders url h0 accept) (some "") cache ?_
      obtain ⟨hc, hu, hh⟩ := requestHeaders_props url h0 accept
      exact ⟨hc, hu, hh, fun a haeq ha => by
        rw [haeq]; exact requestHeaders_accept url h0 a ha⟩
    · rw [heq]
      obtain ⟨hc, hu, hh⟩ := requestHeaders_props url h0 accept
      exact ⟨hc, hu, hh, fun a haeq ha => by
        rw [haeq]; exact requestHeaders_accept url h0 a ha⟩

/-- Claim C10: a call whose URL parses (so that it returns instead of
raising) mutates the caller's header dict object in place: afterwards
the dict contains `Connection: close`, the fixed `User-Agent`, a `Host`
entry, and — when a non-empty accept value was passed — `Accept` with
that value, overwriting whatever the caller had stored under those
keys. -/
theorem c10_caller_dict_mutated (env : Env) (url method : String) (h0 : Headers)
    (data : Option String) (follow : Bool) (accept : Option String) (mr : Int)
    (cache : CacheMap) (po : Option Nat)
    (hport : netlocPort (pyUrlparse url).netloc = .ok po) :
    dictGet (make_http_request env url method h0 data follow accept mr cache).dict "Connection" =
      some "close" ∧
    dictGet (make_http_request env url method h0 data follow accept mr cache).dict "User-Agent" =
      some userAgent ∧
    (dictGet (make_http_request env url method h0 data follow accept mr cache).dict "Host").isSome =
      true ∧
    (∀ a, accept = some a → a ≠ "" →
      dictGet (make_http_request env url method h0 data follow accept mr cache).dict "Accept" =
        some a) := by
  unfold make_http_request
  rcases requestRec_shape env url method h0 data follow accept mr.toNat cache with
    ⟨e, hp, heq⟩ | ⟨hit, hsh, heq⟩ | ⟨msg, prt2, req2, heq⟩ | ⟨e, prt2, req2, heq⟩ |
    ⟨fn, rurl, prt2, req2, hfn, heq⟩ | ⟨st2, rh, bd, prt2, req2, heq⟩
  · rw [hp] at hport; exact absurd hport (by simp)
  · rw [heq]
    obtain ⟨hc, hu, hh⟩ := requestHeaders_props url h0 accept
    exact ⟨hc, hu, hh, fun a haeq ha => by
      rw [haeq]; exact requestHeaders_accept url h0 a ha⟩
  · rw [heq]
    obtain ⟨hc, hu, hh⟩ := requestHeaders_props url h0 accept
    exact ⟨hc, hu, hh, fun a haeq ha => by
      rw [haeq]; exact requestHeaders_accept url h0 a ha⟩
  · rw [heq]
    obtain ⟨hc, hu, hh⟩ := requestHeaders_props url h0 accept
    exact ⟨hc, hu, hh, fun a haeq ha => by
      rw [haeq]; exact requestHeaders_accept url h0 a ha⟩
  · rw [heq]
    refine requestRec_dict_mutation env method follow accept fn rurl
      (requestHeaders url h0 accept) (some "") cache ?_
    obtain ⟨hc, hu, hh⟩ := requestHeaders_props url h0 accept
    exact ⟨hc, hu, hh, fun a haeq ha => by
      rw [haeq]; exact requestHeaders_accept url h0 a ha⟩
  · rw [heq]
    obtain ⟨hc, hu, hh⟩ := requestHeaders_props url h0 accept
    exact ⟨hc, hu, hh, fun a haeq ha => by
      rw [haeq]; exact requestHeaders_accept url h0 a ha⟩

/-- Witness for C10 at a concrete call whose caller dict held its own
`Connection` and `Accept` values (both overwritten). -/
theorem c10_caller_dict_mutated_witness :
    dictGet (make_http_request (constEnv (.ok (asciiBytes "HTTP/1.1 200 OK\r\n\r\nhi")))
        "http://e.com/" "GET" [("Connection", "keep-alive"), ("Accept", "text/xml")] none true
        (some "text/html") 5 []).dict "Connection" = some "close" ∧
    dictGet (make_http_request (constEnv (.ok (asciiBytes "HTTP/1.1 200 OK\r\n\r\nhi")))
        "http://e.com/" "GET" [("Connection", "keep-alive"), ("Accept", "text/xml")] none true
        (some "text/html") 5 []).dict "User-Agent" = some userAgent ∧
    (dictGet (make_http_request (constEnv (.ok (asciiBytes "HTTP/1.1 200 OK\r\n\r\nhi")))
        "http://e.com/" "GET" [("Connection", "keep-alive"), ("Accept", "text/xml")] none true
        (some "text/html") 5 []).dict "Host").isSome = true ∧
    (∀ a, (some "text/html" : Option String) = some a → a ≠ "" →
      dictGet (make_http_request (constEnv (.ok (asciiBytes "HTTP/1.1 200 OK\r\n\r\nhi")))
          "http://e.com/" "GET" [("Connection", "keep-alive"), ("Accept", "text/xml")] none true
          (some "text/html") 5 []).dict "Accept" = some a) :=
  c10_caller_dict_mutated (constEnv (.ok (asciiBytes "HTTP/1.1 200 OK\r\n\r\nhi")))
    "http://e.com/" "GET" [("Connection", "keep-alive"), ("Accept", "text/xml")] none true
    (some "text/html") 5 [] none rfl

end Go2Web